import Mathlib

/-!
Shallow embedding of the TechFlow feed-ingestion and scoring pipeline
(`src/next.config.ts`, feed library chunk, and the feed API route in
`src/unnamed/part_002`), together with theorems checking the
natural-language specification against it.

Modelling conventions:
 - JavaScript strings are modelled as Lean `String`; the string operations
   the code uses (`trim`, `slice`, `includes`, `toLowerCase`, `replace`
   with a string pattern and with the regexes `/\s+/g` and `/<[^>]*>/g`)
   are given explicit executable models over `List Char`.  All texts the
   pipeline handles are ASCII, where these models agree with JS.
 - Timestamps are modelled as integer epoch milliseconds.  The base
   `RawItem` model types a record's date fields as `Option Int`: `none`
   for an absent or empty (falsy) field, `some t` for a date string that
   parses to instant `t`.  The code has one more reachable case — a
   present but unparseable date string is truthy, is picked by
   `isoDate || pubDate || now`, and gives `NaN` at every parse site — so
   the `JS`-suffixed definitions repeat the pipeline with that case
   represented (`RawDate.junk`; `none` in an emitted item's
   `publishedAt` or `score` models a NaN value).  On junk-free records
   the two pipelines agree per record (`normalizeItemJS_toJS`).
 - JS floating-point arithmetic in the scorer is modelled exactly over `ℚ`.
 - Network fetching and HTML scraping are modelled by their results: a raw
   record list per source id, and a (repo text, description text) pair per
   scraped trending entry.
-/

namespace Techflow

/-! ### JS string primitives -/

/-- Model of `String.prototype.trim`: strip leading and trailing
whitespace from a character list. -/
def listTrim (cs : List Char) : List Char :=
  ((cs.dropWhile (fun c => c.isWhitespace)).reverse.dropWhile
    (fun c => c.isWhitespace)).reverse

/-- Model of `String.prototype.trim` on strings. -/
def jsTrim (s : String) : String := ⟨listTrim s.data⟩

/-- Substring test on character lists, model of `String.prototype.includes`. -/
def listContainsSub (pat : List Char) : List Char → Bool
  | [] => pat.isEmpty
  | c :: rest => pat.isPrefixOf (c :: rest) || listContainsSub pat rest

/-- Model of `lowered.includes(signal)`. -/
def jsIncludes (s pat : String) : Bool := listContainsSub pat.data s.data

/-- Replace the first occurrence of `pat` (a non-empty literal pattern) by
`repl`, model of `String.prototype.replace` with a string pattern. -/
def listReplaceFirst (pat repl : List Char) : List Char → List Char
  | [] => []
  | c :: rest =>
    if pat.isPrefixOf (c :: rest) then repl ++ (c :: rest).drop pat.length
    else c :: listReplaceFirst pat repl rest

/-- Model of `s.replace(pat, repl)` for a string (non-regex) pattern:
only the first occurrence is replaced. -/
def jsReplaceFirst (s pat repl : String) : String :=
  ⟨listReplaceFirst pat.data repl.data s.data⟩

/-- Replace every maximal run of whitespace by `repl`; the `Bool` argument
records whether the previous character was part of a run. -/
def listCollapseWS (repl : List Char) : Bool → List Char → List Char
  | _, [] => []
  | prevWS, c :: rest =>
    if c.isWhitespace then
      (if prevWS then [] else repl) ++ listCollapseWS repl true rest
    else c :: listCollapseWS repl false rest

/-- Model of `s.replace(/\s+/g, repl)`. -/
def jsCollapseWS (repl : String) (s : String) : String :=
  ⟨listCollapseWS repl.data false s.data⟩

/-- Model of `String.prototype.toLowerCase` on the ASCII texts handled by
the pipeline. -/
def jsLower (s : String) : String := ⟨s.data.map Char.toLower⟩

/-- Model of `s.slice(0, n)`. -/
def jsSlice (s : String) (n : Nat) : String := ⟨s.data.take n⟩

/-- Model of `s.length` (all handled texts are ASCII, where JS UTF-16
length and character count agree). -/
def jsLength (s : String) : Nat := s.data.length

/-- Model of the JS `a || b` idiom on strings: `b` when `a` is empty
(falsy), `a` otherwise. -/
def jsOrString (a b : String) : String := if a = "" then b else a

/-- Model of reading an optional JS string field under `||`-chaining:
an absent field behaves like the empty string. -/
def optString (o : Option String) : String := o.getD ""

/-! ### Classifier tables and functions (`src/next.config.ts`) -/

/-- Fixed category enumeration from `src/lib/types.ts` (`FeedCategory`). -/
inductive FeedCategory where
  | techConferences
  | productLaunches
  | researchPapers
  | techJobs
  | industryNews
  | openSource
deriving DecidableEq, Repr

/-- The six values of the `FeedCategory` enumeration. -/
def categoryValues : List FeedCategory :=
  [.techConferences, .productLaunches, .researchPapers, .techJobs,
   .industryNews, .openSource]

def conferenceSignals : List String :=
  ["conference", "summit", "keynote", "meetup", "expo"]

def researchSignals : List String :=
  ["paper", "arxiv", "research", "study"]

def jobSignals : List String :=
  ["hiring", "job", "career", "role", "recruiting"]

def productSignals : List String :=
  ["launch", "release", "announces", "introduces", "beta"]

/-- Embedding of `inferCategory`: lower-case the text, test the four
signal groups in fixed order, fall back to the source default. -/
def inferCategory (text : String) (sourceCategory : FeedCategory) :
    FeedCategory :=
  let lowered := jsLower text
  if conferenceSignals.any (fun signal => jsIncludes lowered signal) then
    .techConferences
  else if researchSignals.any (fun signal => jsIncludes lowered signal) then
    .researchPapers
  else if jobSignals.any (fun signal => jsIncludes lowered signal) then
    .techJobs
  else if productSignals.any (fun signal => jsIncludes lowered signal) then
    .productLaunches
  else sourceCategory

/-- Embedding of the `tagKeywords` table, in object-literal order. -/
def tagKeywords : List (String × List String) :=
  [("AI/ML", ["ai", "ml", "machine learning", "llm", "neural", "model", "prompt"]),
   ("DevOps", ["kubernetes", "docker", "devops", "ci/cd", "terraform", "k8s"]),
   ("Web3", ["web3", "blockchain", "crypto", "solana", "ethereum"]),
   ("Cloud", ["aws", "azure", "gcp", "cloud", "serverless"]),
   ("Security", ["security", "vulnerability", "zero-day", "cve", "breach"]),
   ("Data", ["database", "postgres", "mysql", "mongodb", "data"]),
   ("Frontend", ["react", "vue", "svelte", "css", "frontend"]),
   ("Backend", ["api", "node", "fastapi", "go", "rust", "backend"]),
   ("Mobile", ["ios", "android", "react native", "flutter"]),
   ("Startups", ["startup", "funding", "seed", "series", "venture"])]

/-- Embedding of `inferTags`: every topic with a keyword match, else the
single fallback tag. -/
def inferTags (text : String) : List String :=
  let lowered := jsLower text
  let tags := (tagKeywords.filter
    (fun p => p.2.any (fun keyword => jsIncludes lowered keyword))).map
    (fun p => p.1)
  if tags.length > 0 then tags else ["General"]

/-! ### Scorer (`scoreItem`) -/

/-- Embedding of `scoreItem`.  `publishedAt` is the parse of the item's
date string, `now` the run instant (`Date.now()`), both in epoch ms;
the float arithmetic is modelled exactly over `ℚ`. -/
def scoreItem (publishedAt now : Int) (weight : ℚ) : ℚ :=
  let hoursAgo : ℚ := max (((now - publishedAt : Int) : ℚ) / (1000 * 60 * 60)) 1
  let recencyScore : ℚ := max 0.1 (1.2 - hoursAgo / 48)
  min 1 (recencyScore * weight)

/-! ### Normalizer helpers (`stripHtml`, `clampSummary`, `extractDomain`) -/

/-- Model of `value.replace(/<[^>]*>/g, " ")` on character lists: each
maximal `<...>` group with no inner `>` becomes one space; a `<` with no
later `>` is not a match and stays. -/
def listStripTags : List Char → List Char
  | [] => []
  | c :: rest =>
    if c = '<' && rest.contains '>' then
      ' ' :: listStripTags ((rest.dropWhile (fun x => x != '>')).drop 1)
    else c :: listStripTags rest
termination_by cs => cs.length
decreasing_by
  · have h1 : (rest.dropWhile (fun x => x != '>')).length ≤ rest.length :=
      (List.dropWhile_sublist _).length_le
    simp only [List.length_drop, List.length_cons]
    omega
  · simp

/-- Embedding of `stripHtml`: replace markup tags by spaces, collapse
whitespace runs to single spaces, trim. -/
def stripHtml (value : String) : String :=
  ⟨listTrim (listCollapseWS [' '] false (listStripTags value.data))⟩

/-- Embedding of `clampSummary` (the source's `max` parameter; every call
site passes the default 220). -/
def clampSummary (value : String) (maxLen : Nat) : String :=
  if jsLength value ≤ maxLen then value
  else jsTrim (jsSlice value maxLen) ++ "..."

/-- Models the hostname computation of the platform WHATWG `new URL(value)`
constructor used by `extractDomain`, for plain absolute `http`/`https`
URLs (already-lowercased host, no userinfo): the hostname is the text
between the scheme separator and the first `/`, `:`, `?` or `#`; any
other string fails to parse (`none`). -/
def urlHostname (value : String) : Option String :=
  let rest : Option (List Char) :=
    if "https://".data.isPrefixOf value.data then some (value.data.drop 8)
    else if "http://".data.isPrefixOf value.data then some (value.data.drop 7)
    else none
  match rest with
  | none => none
  | some cs =>
    let host := cs.takeWhile (fun c => !(c = '/' || c = ':' || c = '?' || c = '#'))
    if host.isEmpty then none else some ⟨host⟩

/-- Embedding of `extractDomain`: hostname of the parsed URL with the
first occurrence of `"www."` replaced by the empty string
(`url.hostname.replace("www.", "")`); the sentinel `"source"` when the
URL constructor throws. -/
def extractDomain (value : String) : String :=
  match urlHostname value with
  | some host => jsReplaceFirst host "www." ""
  | none => "source"

/-! ### Source registry and item model -/

/-- Embedding of the `SourceConfig` record type. -/
structure SourceConfig where
  id : String
  name : String
  url : String
  category : FeedCategory
  weight : ℚ
deriving DecidableEq, Repr

/-- Embedding of the static `sources` catalog, in declaration order. -/
def sources : List SourceConfig :=
  [⟨"techcrunch", "TechCrunch", "https://techcrunch.com/feed/", .industryNews, 0.9⟩,
   ⟨"hn", "Hacker News", "https://news.ycombinator.com/rss", .industryNews, 0.75⟩,
   ⟨"devto", "Dev.to", "https://dev.to/feed", .openSource, 0.8⟩,
   ⟨"producthunt", "Product Hunt", "https://www.producthunt.com/feed", .productLaunches, 0.85⟩,
   ⟨"lwn", "LWN.net", "https://lwn.net/headlines/rss", .openSource, 0.9⟩,
   ⟨"infoq", "InfoQ", "https://www.infoq.com/feed/", .researchPapers, 0.8⟩,
   ⟨"arstechnica", "Ars Technica", "https://feeds.arstechnica.com/arstechnica/index", .industryNews, 0.85⟩,
   ⟨"githubblog", "GitHub Blog", "https://github.blog/feed/", .openSource, 0.8⟩,
   ⟨"awsblog", "AWS Blog", "https://aws.amazon.com/blogs/aws/feed/", .industryNews, 0.8⟩,
   ⟨"gcpblog", "Google Cloud Blog", "https://cloud.google.com/blog/rss/", .industryNews, 0.8⟩,
   ⟨"netflixtech", "Netflix TechBlog", "https://netflixtechblog.com/feed", .openSource, 0.75⟩,
   ⟨"stackoverflow", "Stack Overflow Blog", "https://stackoverflow.blog/feed/", .industryNews, 0.7⟩,
   ⟨"openai", "OpenAI Blog", "https://openai.com/blog/rss/", .researchPapers, 0.85⟩,
   ⟨"arxiv-ai", "arXiv AI", "https://export.arxiv.org/rss/cs.AI", .researchPapers, 0.95⟩,
   ⟨"arxiv-cl", "arXiv CL", "https://export.arxiv.org/rss/cs.CL", .researchPapers, 0.95⟩,
   ⟨"arxiv-lg", "arXiv ML", "https://export.arxiv.org/rss/cs.LG", .researchPapers, 0.95⟩,
   ⟨"weworkremotely", "We Work Remotely", "https://weworkremotely.com/categories/remote-programming-jobs.rss", .techJobs, 0.6⟩]

/-- A raw per-source record as delivered by the RSS parser, restricted to
junk-free dates.  String fields are `none` when absent; the two date
fields are `none` when absent or empty and `some t` when they parse to
epoch instant `t`.  Records carrying a present but unparseable date are
covered by `RawItemJS` below. -/
structure RawItem where
  title : Option String
  link : Option String
  guid : Option String
  contentSnippet : Option String
  content : Option String
  summary : Option String
  isoDate : Option Int
  pubDate : Option Int
deriving DecidableEq, Repr

/-- Embedding of the canonical `FeedItem` shape from `src/lib/types.ts`
(`publishedAt` as epoch ms, `score` over `ℚ`). -/
structure FeedItem where
  id : String
  title : String
  url : String
  source : String
  sourceDomain : String
  publishedAt : Int
  summary : String
  category : FeedCategory
  tags : List String
  score : ℚ
deriving DecidableEq, Repr

/-- Embedding of the per-record construction inside `fetchFeedItems`
(`feed.items.map(...)`, lines 336-361): title via `?.trim() ?? "Untitled"`,
url via `link ?? guid ?? ""`, content via the `||` fallback chain fed to
`stripHtml`, date via `isoDate || pubDate || now`, id template with
whitespace runs replaced by dashes. -/
def normalizeItem (source : SourceConfig) (now : Int) (item : RawItem) :
    FeedItem :=
  let title := match item.title with
    | some t => jsTrim t
    | none => "Untitled"
  let link := item.link.getD (item.guid.getD "")
  let content := stripHtml (jsOrString (optString item.contentSnippet)
    (jsOrString (optString item.content)
      (jsOrString (optString item.summary) title)))
  let publishedAt := item.isoDate.getD (item.pubDate.getD now)
  let textForSignals := title ++ " " ++ content
  ⟨jsCollapseWS "-" (source.id ++ "-" ++
      jsOrString (optString item.guid) (jsOrString link title)),
   title,
   link,
   source.name,
   extractDomain (jsOrString link source.url),
   publishedAt,
   clampSummary content 220,
   inferCategory textForSignals source.category,
   inferTags textForSignals,
   scoreItem publishedAt now source.weight⟩

/-! ### Trending scraper (`fetchGitHubTrending`) -/

/-- Embedding of the item constructed for one scraped trending entry:
`entry.1` is the raw `h2 a` text (whitespace removed by
`.replace(/\s+/g, "")`), `entry.2` the raw `p` text (trimmed); the run
instant `now` stands for both `new Date().toISOString()` and the
`Date.now()` read inside `scoreItem`. -/
def trendingItem (now : Int) (entry : String × String) : FeedItem :=
  let repo := jsCollapseWS "" entry.1
  let description := jsTrim entry.2
  let link := "https://github.com/" ++ repo
  let textForSignals := repo ++ " " ++ description
  ⟨"github-trending-" ++ repo,
   jsReplaceFirst repo "/" " / ",
   link,
   "GitHub Trending",
   "github.com",
   now,
   clampSummary (jsOrString description "Trending repository.") 220,
   inferCategory textForSignals .openSource,
   inferTags textForSignals,
   scoreItem now now 0.9⟩

/-- Embedding of `fetchGitHubTrending` on the scraped `article.Box-row`
entries: the `each` callback returns early for `index > 10`, so only the
first 11 entries produce items. -/
def fetchGitHubTrending (entries : List (String × String)) (now : Int) :
    List FeedItem :=
  (entries.take 11).map (trendingItem now)

/-! ### Merger / deduplicator and the pipeline -/

/-- Embedding of the deduplication key `item.url || item.title`. -/
def itemKey (item : FeedItem) : String := jsOrString item.url item.title

/-- Embedding of the `for (const item of flat)` loop over the JS `Map`:
`seen` is the set of keys already inserted; insertion order of first
occurrences is preserved, as `Map.values()` is. -/
def dedupeGo (seen : List String) : List FeedItem → List FeedItem
  | [] => []
  | item :: rest =>
    if itemKey item ∈ seen then dedupeGo seen rest
    else item :: dedupeGo (itemKey item :: seen) rest

/-- Deduplication by key, first occurrence wins. -/
def dedupe (items : List FeedItem) : List FeedItem := dedupeGo [] items

/-- The order the sort comparator `(a, b) => bTime - aTime` imposes:
`a` may precede `b` when `a` is at least as recent. -/
def publishedGE (a b : FeedItem) : Prop := b.publishedAt ≤ a.publishedAt

instance : DecidableRel publishedGE := fun a b =>
  inferInstanceAs (Decidable (b.publishedAt ≤ a.publishedAt))

instance : IsTotal FeedItem publishedGE :=
  ⟨fun a b => Int.le_total b.publishedAt a.publishedAt⟩

instance : IsTrans FeedItem publishedGE :=
  ⟨fun _ _ _ h1 h2 => Int.le_trans h2 h1⟩

/-- Model of `Array.prototype.sort` with the comparator
`(a, b) => bTime - aTime`: JS sort is a stable sort for the comparator's
order, so it is modelled by a stable sort (insertion sort) for
`publishedGE`. -/
def sortByPublishedDesc (items : List FeedItem) : List FeedItem :=
  List.insertionSort publishedGE items

/-- Embedding of the merge step of `fetchFeedItems` (lines 369-380): the
url-truthiness filter, the `Map`-based dedup, the descending sort. -/
def mergeStep (flat : List FeedItem) : List FeedItem :=
  sortByPublishedDesc (dedupe (flat.filter (fun item => !(item.url = ""))))

/-- Embedding of `fetchFeedItems`: `raw` gives each source's parsed
records (a failed fetch contributes `[]`), `trend` the scraped trending
entries, `now` the run instant. -/
def fetchFeedItems (raw : String → List RawItem)
    (trend : List (String × String)) (now : Int) : List FeedItem :=
  let results := sources.map (fun source => (raw source.id).map (normalizeItem source now))
  mergeStep (results.flatten ++ fetchGitHubTrending trend now)

/-- Embedding of `getSourceList`. -/
def getSourceList : List String :=
  sources.map (fun source => source.name) ++ ["GitHub Trending"]

/-! ### Freshness cache (feed API route, `src/unnamed/part_002`) -/

/-- Embedding of the `FeedCache` slot. -/
structure FeedCache where
  items : List FeedItem
  fetchedAt : Int
deriving DecidableEq, Repr

/-- TTL constant `CACHE_TTL_MS = 4 * 60 * 60 * 1000`. -/
def CACHE_TTL_MS : Int := 4 * 60 * 60 * 1000

/-- The JSON payload of the feed route (`sources` field omitted: it is the
constant `getSourceList`). -/
structure FeedResponse where
  items : List FeedItem
  fetchedAt : Int
  cached : Bool
deriving DecidableEq, Repr

/-- Embedding of the feed route `GET` handler: `force` is
`refresh === "1"`, `now` the `Date.now()` read at entry, `cache` the
global slot; a pipeline re-run is modelled by its result `freshItems`
and the later `Date.now()` read `freshAt`.  Returns the response and the
cache slot afterwards. -/
def handleGET (force : Bool) (now : Int) (cache : Option FeedCache)
    (freshItems : List FeedItem) (freshAt : Int) :
    FeedResponse × Option FeedCache :=
  match cache with
  | some c =>
    if force = false ∧ now - c.fetchedAt < CACHE_TTL_MS then
      (⟨c.items, c.fetchedAt, true⟩, some c)
    else
      (⟨freshItems, freshAt, false⟩, some ⟨freshItems, freshAt⟩)
  | none => (⟨freshItems, freshAt, false⟩, some ⟨freshItems, freshAt⟩)

/-! ### NaN-date extension of the pipeline

The base model above types a raw record's date fields as `Option Int`,
covering absent or empty fields and fields that parse.  The code has one
more reachable case: `item.isoDate || item.pubDate` can pick a present
but unparseable date string — it is truthy, so the `|| now` fallback
does not fire — and then `new Date(s).getTime()` is `NaN` at both use
sites (the scorer and the sort comparator); every arithmetic step and
`Math.max`/`Math.min` propagate `NaN`, so the emitted score is `NaN`.
The `JS`-suffixed definitions repeat the pipeline with that case
represented. -/

/-- A date field of a raw record as the JS code can see it: absent or
empty (falsy), a non-empty string parsing to instant `t`, or a non-empty
string that does not parse (`junk`, whose `new Date` parse is NaN). -/
inductive RawDate where
  | absent
  | parsed (t : Int)
  | junk
deriving DecidableEq, Repr

/-- A raw per-source record with the date fields in full generality. -/
structure RawItemJS where
  title : Option String
  link : Option String
  guid : Option String
  contentSnippet : Option String
  content : Option String
  summary : Option String
  isoDate : RawDate
  pubDate : RawDate
deriving DecidableEq, Repr

/-- Embedding of `item.isoDate || item.pubDate || new Date().toISOString()`
followed by the date parse at the use sites: the first truthy field
wins; `some t` is a successful parse, `none` a NaN parse (a `junk` field
was picked); the fallback always parses to the run instant.  Both use
sites parse the same resolved string, so one resolution models both. -/
def resolveDate (isoDate pubDate : RawDate) (now : Int) : Option Int :=
  match isoDate with
  | .parsed t => some t
  | .junk => none
  | .absent =>
    match pubDate with
    | .parsed t => some t
    | .junk => none
    | .absent => some now

/-- Embedding of `scoreItem` on a possibly-NaN parsed date: subtraction,
division, `Math.max`, multiplication and `Math.min` all map NaN to NaN,
so a NaN date yields a NaN score. -/
def scoreItemJS (publishedAt : Option Int) (now : Int) (weight : ℚ) :
    Option ℚ :=
  match publishedAt with
  | some t => some (scoreItem t now weight)
  | none => none

/-- The canonical item shape with NaN representable: `publishedAt` is
the parse of the emitted date string (`none` = NaN), `score` the emitted
score (`none` = NaN). -/
structure FeedItemJS where
  id : String
  title : String
  url : String
  source : String
  sourceDomain : String
  publishedAt : Option Int
  summary : String
  category : FeedCategory
  tags : List String
  score : Option ℚ
deriving DecidableEq, Repr

/-- Containment of a possibly-NaN score in the closed interval [0, 1]:
a NaN score lies in no interval. -/
def scoreInUnit : Option ℚ → Prop
  | some q => 0 ≤ q ∧ q ≤ 1
  | none => False

/-- Embedding of the per-record construction inside `fetchFeedItems`
with the unparseable-date path represented; every other field is
computed exactly as in `normalizeItem`. -/
def normalizeItemJS (source : SourceConfig) (now : Int) (item : RawItemJS) :
    FeedItemJS :=
  let title := match item.title with
    | some t => jsTrim t
    | none => "Untitled"
  let link := item.link.getD (item.guid.getD "")
  let content := stripHtml (jsOrString (optString item.contentSnippet)
    (jsOrString (optString item.content)
      (jsOrString (optString item.summary) title)))
  let publishedAt := resolveDate item.isoDate item.pubDate now
  let textForSignals := title ++ " " ++ content
  ⟨jsCollapseWS "-" (source.id ++ "-" ++
      jsOrString (optString item.guid) (jsOrString link title)),
   title,
   link,
   source.name,
   extractDomain (jsOrString link source.url),
   publishedAt,
   clampSummary content 220,
   inferCategory textForSignals source.category,
   inferTags textForSignals,
   scoreItemJS publishedAt now source.weight⟩

/-- Trending item in the NaN-aware item shape: the synthesized "now"
date always parses, so its timestamp and score are never NaN. -/
def trendingItemJS (now : Int) (entry : String × String) : FeedItemJS :=
  let repo := jsCollapseWS "" entry.1
  let description := jsTrim entry.2
  let link := "https://github.com/" ++ repo
  let textForSignals := repo ++ " " ++ description
  ⟨"github-trending-" ++ repo,
   jsReplaceFirst repo "/" " / ",
   link,
   "GitHub Trending",
   "github.com",
   some now,
   clampSummary (jsOrString description "Trending repository.") 220,
   inferCategory textForSignals .openSource,
   inferTags textForSignals,
   some (scoreItem now now 0.9)⟩

/-- NaN-aware `fetchGitHubTrending` (same 11-entry cap). -/
def fetchGitHubTrendingJS (entries : List (String × String)) (now : Int) :
    List FeedItemJS :=
  (entries.take 11).map (trendingItemJS now)

/-- Dedup key `item.url || item.title`, as in `itemKey`. -/
def itemKeyJS (item : FeedItemJS) : String := jsOrString item.url item.title

/-- The `Map` loop of the merge step, as in `dedupeGo`. -/
def dedupeGoJS (seen : List String) : List FeedItemJS → List FeedItemJS
  | [] => []
  | item :: rest =>
    if itemKeyJS item ∈ seen then dedupeGoJS seen rest
    else item :: dedupeGoJS (itemKeyJS item :: seen) rest

/-- First-occurrence dedup on NaN-aware items. -/
def dedupeJS (items : List FeedItemJS) : List FeedItemJS :=
  dedupeGoJS [] items

/-- Boolean order modelling the sort comparator when a NaN date can
occur: two parsed dates compare by recency; a comparison involving NaN
returns NaN, which the sort algorithm treats as 0, requiring no
exchange. -/
def jsDescLeB (a b : FeedItemJS) : Bool :=
  match a.publishedAt, b.publishedAt with
  | some ta, some tb => tb ≤ ta
  | _, _ => true

/-- Propositional form of `jsDescLeB`.  With a NaN date present the
comparator is inconsistent and ECMAScript leaves the resulting order
implementation-defined, so the model fixes the stable choice; theorems
about runs that may contain NaN dates rely on membership only, which
every permutation preserves. -/
def jsDescLe (a b : FeedItemJS) : Prop := jsDescLeB a b = true

instance : DecidableRel jsDescLe := fun a b =>
  inferInstanceAs (Decidable (jsDescLeB a b = true))

/-- NaN-aware sort step. -/
def sortJS (items : List FeedItemJS) : List FeedItemJS :=
  List.insertionSort jsDescLe items

/-- NaN-aware merge step: same url filter, dedup and sort. -/
def mergeStepJS (flat : List FeedItemJS) : List FeedItemJS :=
  sortJS (dedupeJS (flat.filter (fun item => !(item.url = ""))))

/-- NaN-aware `fetchFeedItems`. -/
def fetchFeedItemsJS (raw : String → List RawItemJS)
    (trend : List (String × String)) (now : Int) : List FeedItemJS :=
  let results := sources.map (fun source => (raw source.id).map (normalizeItemJS source now))
  mergeStepJS (results.flatten ++ fetchGitHubTrendingJS trend now)

/-- Inclusion of junk-free date fields into `RawDate`. -/
def dateToJS : Option Int → RawDate
  | none => .absent
  | some t => .parsed t

/-- Inclusion of junk-free raw records into the full record model. -/
def RawItem.toJS (item : RawItem) : RawItemJS :=
  ⟨item.title, item.link, item.guid, item.contentSnippet, item.content,
   item.summary, dateToJS item.isoDate, dateToJS item.pubDate⟩

/-- Inclusion of NaN-free items into the NaN-aware item shape. -/
def FeedItem.toJS (item : FeedItem) : FeedItemJS :=
  ⟨item.id, item.title, item.url, item.source, item.sourceDomain,
   some item.publishedAt, item.summary, item.category, item.tags,
   some item.score⟩

/-! ### Spec-side definitions, for refinement comparisons -/

/-- Deduplication as the spec words it: keep the first occurrence of each
key, discard every later item with the same key.  Stated independently of
the source's seen-set loop, for comparison with `dedupe`. -/
def specDedup : List FeedItem → List FeedItem
  | [] => []
  | item :: rest =>
    item :: specDedup (rest.filter (fun other => !(itemKey other = itemKey item)))
termination_by l => l.length
decreasing_by
  have h := List.length_filter_le
    (fun other => !(itemKey other = itemKey item)) rest
  simp only [List.length_cons]
  omega

/-- Hostname with a leading `"www."` prefix stripped and the rest
unchanged, following the spec's words, for comparison with the source's
`extractDomain`. -/
def specLeadingWwwStripped (host : String) : String :=
  if "www.".data.isPrefixOf host.data then ⟨host.data.drop 4⟩ else host

/-- The source's per-group test `group.some((signal) => lowered.includes(signal))`,
named so the priority theorem can state which group matched. -/
def signalMatches (group : List String) (text : String) : Bool :=
  group.any (fun signal => jsIncludes (jsLower text) signal)

/-! ### Concrete inputs used by examples, witnesses and counterexamples -/

/-- Raw record whose native title is present but whitespace-only. -/
def recC8 : RawItem :=
  ⟨some " ", some "https://x.example/a", none, some "body", none, none,
   some 1000, none⟩

/-- Fetch outcome: `recC8` from the first source, nothing else. -/
def rawC8 : String → List RawItem :=
  fun id => if id = "techcrunch" then [recC8] else []

/-- Two records of one source sharing a guid but with different links. -/
def recC9A : RawItem :=
  ⟨some "A", some "https://a.example/", some "g 1", none, none, none,
   some 2000, none⟩

/-- Companion record to `recC9A`: same guid, different link. -/
def recC9B : RawItem :=
  ⟨some "B", some "https://b.example/", some "g 1", none, none, none,
   some 1000, none⟩

/-- Fetch outcome delivering `recC9A` and `recC9B` from the first source. -/
def rawC9 : String → List RawItem :=
  fun id => if id = "techcrunch" then [recC9A, recC9B] else []

/-- The Dev.to entry of the source catalog, spelled out. -/
def cfgDevto : SourceConfig :=
  ⟨"devto", "Dev.to", "https://dev.to/feed", .openSource, 0.8⟩

/-- An ordinary well-formed raw record. -/
def recW : RawItem :=
  ⟨some "Title", some "https://x.example/w", none, none, none, none,
   some 100, none⟩

/-- Fetch outcome: `recW` from Dev.to, nothing else. -/
def rawW : String → List RawItem :=
  fun id => if id = "devto" then [recW] else []

/-- A 300-character text with a space at position 219, so its 220-character
prefix ends in whitespace. -/
def exC6 : String := ⟨List.replicate 219 'a' ++ [' '] ++ List.replicate 80 'b'⟩

/-- A 100-character text. -/
def ex100 : String := ⟨List.replicate 100 'a'⟩

/-- Items with distinct urls and descending timestamps 3 > 2 > 1. -/
def exT1 : FeedItem :=
  ⟨"u1", "u1", "https://e.example/1", "s", "d", 3, "", .openSource, ["General"], 1⟩

/-- Second of the three timestamp-ordered items. -/
def exT2 : FeedItem :=
  ⟨"u2", "u2", "https://e.example/2", "s", "d", 2, "", .openSource, ["General"], 1⟩

/-- Third of the three timestamp-ordered items. -/
def exT3 : FeedItem :=
  ⟨"u3", "u3", "https://e.example/3", "s", "d", 1, "", .openSource, ["General"], 1⟩

/-- First-encountered item of a duplicate-url pair (older timestamp). -/
def exD1 : FeedItem :=
  ⟨"d1", "first", "https://dup.example/", "s", "d", 5, "", .openSource, ["General"], 1⟩

/-- Later-encountered duplicate of `exD1`: same url, newer timestamp. -/
def exD2 : FeedItem :=
  ⟨"d2", "second", "https://dup.example/", "s", "d", 7, "", .openSource, ["General"], 1⟩

/-- A populated cache slot. -/
def cacheC3 : FeedCache := ⟨[exT1], 0⟩

/-- A raw record with no native title at all. -/
def recNoTitle : RawItem :=
  ⟨none, some "https://x.example/n", none, none, none, none, some 100, none⟩

/-- The TechCrunch entry of the source catalog, spelled out. -/
def cfgTechcrunch : SourceConfig :=
  ⟨"techcrunch", "TechCrunch", "https://techcrunch.com/feed/",
   .industryNews, 0.9⟩

/-- A raw record whose pubDate is present but unparseable (and whose
isoDate is absent, as rss-parser leaves it when the date does not
parse). -/
def rawNanRecord : RawItemJS :=
  ⟨some "Broken date", some "https://x.example/nan", none, some "body",
   none, none, .absent, .junk⟩

/-- Fetch outcome: `rawNanRecord` from the first source, nothing else. -/
def rawNan : String → List RawItemJS :=
  fun id => if id = "techcrunch" then [rawNanRecord] else []

/-- The single item the pipeline emits on the `rawNan` run. -/
def itemNan : FeedItemJS := normalizeItemJS cfgTechcrunch 5000 rawNanRecord

/-- An ordinary well-formed record in the full record model. -/
def recWJS : RawItemJS :=
  ⟨some "Title", some "https://x.example/w", none, none, none, none,
   .parsed 100, .absent⟩

/-- Fetch outcome: `recWJS` from Dev.to, nothing else. -/
def rawWJS : String → List RawItemJS :=
  fun id => if id = "devto" then [recWJS] else []

/-- The single item the pipeline emits on the `rawWJS` run at instant 0. -/
def itemWJS : FeedItemJS := normalizeItemJS cfgDevto 0 recWJS

/-! ### Helper lemmas -/

theorem mem_categoryValues (c : FeedCategory) : c ∈ categoryValues := by
  cases c <;> simp [categoryValues]

theorem inferTags_ne_nil (text : String) : inferTags text ≠ [] := by
  simp only [inferTags]
  split
  · rename_i h
    intro hnil
    rw [hnil] at h
    simp at h
  · simp

theorem scoreItem_le_one (publishedAt now : Int) (weight : ℚ) :
    scoreItem publishedAt now weight ≤ 1 := by
  unfold scoreItem
  exact min_le_left _ _

theorem scoreItem_nonneg (publishedAt now : Int) (weight : ℚ)
    (hw : 0 ≤ weight) : 0 ≤ scoreItem publishedAt now weight := by
  unfold scoreItem
  refine le_min (by norm_num) (mul_nonneg ?_ hw)
  calc (0 : ℚ) ≤ 0.1 := by norm_num
    _ ≤ _ := le_max_left _ _

theorem sources_weight_nonneg : ∀ s ∈ sources, (0 : ℚ) ≤ s.weight := by
  intro s hs
  simp only [sources, List.mem_cons, List.not_mem_nil, or_false] at hs
  rcases hs with rfl|rfl|rfl|rfl|rfl|rfl|rfl|rfl|rfl|rfl|rfl|rfl|rfl|rfl|rfl|rfl|rfl <;>
    norm_num

theorem sources_weight_le (s : SourceConfig) (hs : s ∈ sources) :
    s.weight ≤ 0.95 := by
  simp only [sources, List.mem_cons, List.not_mem_nil, or_false] at hs
  rcases hs with rfl|rfl|rfl|rfl|rfl|rfl|rfl|rfl|rfl|rfl|rfl|rfl|rfl|rfl|rfl|rfl|rfl <;>
    norm_num

theorem dedupeGo_sublist (l : List FeedItem) :
    ∀ seen : List String, List.Sublist (dedupeGo seen l) l := by
  induction l with
  | nil => intro seen; simp [dedupeGo]
  | cons item rest ih =>
    intro seen
    by_cases h : itemKey item ∈ seen
    · rw [dedupeGo, if_pos h]
      exact (ih seen).cons item
    · rw [dedupeGo, if_neg h]
      exact (ih (itemKey item :: seen)).cons₂ item

theorem dedupe_sublist (l : List FeedItem) : List.Sublist (dedupe l) l :=
  dedupeGo_sublist l []

theorem dedupeGo_eq_specDedup (l : List FeedItem) :
    ∀ seen : List String,
      dedupeGo seen l =
        specDedup (l.filter (fun item => decide (itemKey item ∉ seen))) := by
  induction l with
  | nil => intro seen; simp [dedupeGo, specDedup]
  | cons item rest ih =>
    intro seen
    rw [List.filter_cons]
    by_cases h : itemKey item ∈ seen
    · rw [if_neg (by simpa using h)]
      rw [dedupeGo, if_pos h]
      exact ih seen
    · rw [if_pos (by simpa using h)]
      rw [dedupeGo, if_neg h]
      rw [specDedup]
      rw [ih (itemKey item :: seen), List.filter_filter]
      congr 1
      congr 1
      apply List.filter_congr
      intro other _
      simp only [List.mem_cons, not_or]
      cases hd : decide (itemKey other = itemKey item) <;>
        cases hd2 : decide (itemKey other ∈ seen) <;> simp_all

theorem dedupe_eq_specDedup (l : List FeedItem) : dedupe l = specDedup l := by
  unfold dedupe
  rw [dedupeGo_eq_specDedup l []]
  congr 1
  apply List.filter_eq_self.mpr
  intro a _
  simp

theorem dedupeGo_keys_nodup (l : List FeedItem) :
    ∀ seen : List String,
      ((dedupeGo seen l).map itemKey).Nodup ∧
        ∀ k ∈ (dedupeGo seen l).map itemKey, k ∉ seen := by
  induction l with
  | nil => intro seen; simp [dedupeGo]
  | cons item rest ih =>
    intro seen
    by_cases h : itemKey item ∈ seen
    · rw [dedupeGo, if_pos h]
      exact ih seen
    · rw [dedupeGo, if_neg h]
      obtain ⟨hnodup, hfresh⟩ := ih (itemKey item :: seen)
      have hmemfalse : itemKey item ∉
          (dedupeGo (itemKey item :: seen) rest).map itemKey := by
        intro hmem
        exact hfresh _ hmem (List.mem_cons_self _ _)
      refine ⟨?_, ?_⟩
      · simp only [List.map_cons]
        exact List.nodup_cons.mpr ⟨hmemfalse, hnodup⟩
      · intro k hk
        simp only [List.map_cons, List.mem_cons] at hk
        rcases hk with rfl | hk
        · exact h
        · intro hks
          exact hfresh _ hk (List.mem_cons_of_mem _ hks)

theorem dedupe_keys_nodup (l : List FeedItem) :
    ((dedupe l).map itemKey).Nodup :=
  (dedupeGo_keys_nodup l []).1

theorem mergeStep_perm (l : List FeedItem) :
    List.Perm (mergeStep l)
      (dedupe (l.filter (fun item => !(item.url = "")))) :=
  List.perm_insertionSort _ _

theorem mem_mergeStep {i : FeedItem} {l : List FeedItem}
    (h : i ∈ mergeStep l) : i ∈ l ∧ i.url ≠ "" := by
  have h1 : i ∈ dedupe (l.filter (fun item => !(item.url = ""))) :=
    (mergeStep_perm l).mem_iff.mp h
  have h2 : i ∈ l.filter (fun item => !(item.url = "")) :=
    (dedupe_sublist _).subset h1
  rw [List.mem_filter] at h2
  refine ⟨h2.1, ?_⟩
  have := h2.2
  simpa using this

theorem mergeStep_pairwise (l : List FeedItem) :
    (mergeStep l).Pairwise (fun a b => b.publishedAt ≤ a.publishedAt) :=
  List.sorted_insertionSort publishedGE _

theorem mem_fetchFeedItems_cases {raw : String → List RawItem}
    {trend : List (String × String)} {now : Int} {i : FeedItem}
    (h : i ∈ fetchFeedItems raw trend now) :
    (∃ s ∈ sources, ∃ r ∈ raw s.id, i = normalizeItem s now r) ∨
      (∃ e ∈ trend.take 11, i = trendingItem now e) := by
  unfold fetchFeedItems at h
  have h1 := (mem_mergeStep h).1
  rw [List.mem_append] at h1
  rcases h1 with h1 | h1
  · left
    rw [List.mem_flatten] at h1
    obtain ⟨ls, hls, hi⟩ := h1
    rw [List.mem_map] at hls
    obtain ⟨s, hs, rfl⟩ := hls
    rw [List.mem_map] at hi
    obtain ⟨r, hr, rfl⟩ := hi
    exact ⟨s, hs, r, hr, rfl⟩
  · right
    unfold fetchGitHubTrending at h1
    rw [List.mem_map] at h1
    obtain ⟨e, he, rfl⟩ := h1
    exact ⟨e, he, rfl⟩

theorem scoreItem_self_09 (now : Int) : scoreItem now now 0.9 = 1 := by
  unfold scoreItem
  norm_num

theorem listReplaceFirst_of_not_contains (pat repl : List Char) :
    ∀ cs : List Char, listContainsSub pat cs = false →
      listReplaceFirst pat repl cs = cs := by
  intro cs
  induction cs with
  | nil => intro _; rfl
  | cons c rest ih =>
    intro h
    rw [listContainsSub] at h
    rw [Bool.or_eq_false_iff] at h
    rw [listReplaceFirst, if_neg (by simp [h.1]), ih h.2]

theorem listReplaceFirst_of_leading (repl : List Char) (cs : List Char)
    (h : "www.".data.isPrefixOf cs = true) :
    listReplaceFirst "www.".data repl cs = repl ++ cs.drop 4 := by
  cases cs with
  | nil => simp [List.isPrefixOf] at h
  | cons c rest =>
    rw [listReplaceFirst, if_pos h]
    rfl

theorem dedupeGoJS_sublist (l : List FeedItemJS) :
    ∀ seen : List String, List.Sublist (dedupeGoJS seen l) l := by
  induction l with
  | nil => intro seen; simp [dedupeGoJS]
  | cons item rest ih =>
    intro seen
    by_cases h : itemKeyJS item ∈ seen
    · rw [dedupeGoJS, if_pos h]
      exact (ih seen).cons item
    · rw [dedupeGoJS, if_neg h]
      exact (ih (itemKeyJS item :: seen)).cons₂ item

theorem dedupeJS_sublist (l : List FeedItemJS) :
    List.Sublist (dedupeJS l) l :=
  dedupeGoJS_sublist l []

theorem mergeStepJS_perm (l : List FeedItemJS) :
    List.Perm (mergeStepJS l)
      (dedupeJS (l.filter (fun item => !(item.url = "")))) :=
  List.perm_insertionSort _ _

theorem mem_mergeStepJS {i : FeedItemJS} {l : List FeedItemJS}
    (h : i ∈ mergeStepJS l) : i ∈ l ∧ i.url ≠ "" := by
  have h1 : i ∈ dedupeJS (l.filter (fun item => !(item.url = ""))) :=
    (mergeStepJS_perm l).mem_iff.mp h
  have h2 : i ∈ l.filter (fun item => !(item.url = "")) :=
    (dedupeJS_sublist _).subset h1
  rw [List.mem_filter] at h2
  refine ⟨h2.1, ?_⟩
  have := h2.2
  simpa using this

theorem mem_fetchFeedItemsJS_cases {raw : String → List RawItemJS}
    {trend : List (String × String)} {now : Int} {i : FeedItemJS}
    (h : i ∈ fetchFeedItemsJS raw trend now) :
    (∃ s ∈ sources, ∃ r ∈ raw s.id, i = normalizeItemJS s now r) ∨
      (∃ e ∈ trend.take 11, i = trendingItemJS now e) := by
  unfold fetchFeedItemsJS at h
  have h1 := (mem_mergeStepJS h).1
  rw [List.mem_append] at h1
  rcases h1 with h1 | h1
  · left
    rw [List.mem_flatten] at h1
    obtain ⟨ls, hls, hi⟩ := h1
    rw [List.mem_map] at hls
    obtain ⟨s, hs, rfl⟩ := hls
    rw [List.mem_map] at hi
    obtain ⟨r, hr, rfl⟩ := hi
    exact ⟨s, hs, r, hr, rfl⟩
  · right
    unfold fetchGitHubTrendingJS at h1
    rw [List.mem_map] at h1
    obtain ⟨e, he, rfl⟩ := h1
    exact ⟨e, he, rfl⟩

theorem normalizeItemJS_toJS (source : SourceConfig) (now : Int)
    (item : RawItem) :
    normalizeItemJS source now (RawItem.toJS item) =
      FeedItem.toJS (normalizeItem source now item) := by
  cases item with
  | mk t l g cs c su iso pub => cases iso <;> cases pub <;> rfl

/-! ### Claim theorems -/

set_option maxRecDepth 100000

/-- Counterexample to C1 as stated: a record whose pubDate is present
but unparseable survives to the output (its url is fine), the `|| now`
fallback does not fire because the junk string is truthy, and the
emitted item's score is the NaN that `new Date(junk).getTime()`
propagates through the scorer — a value lying in no interval, in
particular not in [0, 1]. -/
theorem feed_score_nan_cex :
    rawNanRecord.pubDate = RawDate.junk ∧
    fetchFeedItemsJS rawNan [] 5000 = [itemNan] ∧
    itemNan.url = "https://x.example/nan" ∧
    itemNan.publishedAt = none ∧
    itemNan.score = none ∧
    ¬ scoreInUnit itemNan.score :=
  ⟨rfl, rfl, rfl, rfl, rfl, fun h => h⟩

/-- Amended C1: every emitted item has a non-empty url, a category from
the fixed six-value enumeration and a non-empty tag list; its score lies
in [0, 1] whenever its resolved published date parses — in particular
whenever the record's date fields are absent, empty or parseable — while
an item whose record carried a present but unparseable date has a NaN
timestamp and a NaN score. -/
theorem feed_output_invariants_amended (raw : String → List RawItemJS)
    (trend : List (String × String)) (now : Int) (i : FeedItemJS)
    (hi : i ∈ fetchFeedItemsJS raw trend now) :
    i.url ≠ "" ∧ i.category ∈ categoryValues ∧ i.tags ≠ [] ∧
      (i.publishedAt ≠ none → scoreInUnit i.score) ∧
      (i.publishedAt = none → i.score = none) := by
  have hurl : i.url ≠ "" := by
    have hi2 := hi
    unfold fetchFeedItemsJS at hi2
    exact (mem_mergeStepJS hi2).2
  refine ⟨hurl, mem_categoryValues _, ?_, ?_, ?_⟩
  all_goals
    rcases mem_fetchFeedItemsJS_cases hi with ⟨s, hs, r, _, rfl⟩ | ⟨e, _, rfl⟩
  · exact inferTags_ne_nil _
  · exact inferTags_ne_nil _
  · intro hne
    cases hpub : (normalizeItemJS s now r).publishedAt with
    | none => exact absurd hpub hne
    | some t =>
      have hscore : (normalizeItemJS s now r).score =
          scoreItemJS ((normalizeItemJS s now r).publishedAt) now s.weight :=
        rfl
      rw [hscore, hpub]
      exact ⟨scoreItem_nonneg _ _ _ (sources_weight_nonneg s hs),
        scoreItem_le_one _ _ _⟩
  · intro _
    exact ⟨scoreItem_nonneg _ _ _ (by norm_num), scoreItem_le_one _ _ _⟩
  · intro hnone
    have hscore : (normalizeItemJS s now r).score =
        scoreItemJS ((normalizeItemJS s now r).publishedAt) now s.weight :=
      rfl
    rw [hscore, hnone]
    rfl
  · intro hnone
    exact Option.noConfusion hnone

/-- Witness for the amended C1 on a concrete clean run: the single
emitted item of the `rawWJS` run satisfies every clause. -/
theorem feed_output_invariants_amended_witness :
    itemWJS.url ≠ "" ∧ itemWJS.category ∈ categoryValues ∧
      itemWJS.tags ≠ [] ∧
      (itemWJS.publishedAt ≠ none → scoreInUnit itemWJS.score) ∧
      (itemWJS.publishedAt = none → itemWJS.score = none) :=
  feed_output_invariants_amended rawWJS [] 0 itemWJS (List.Mem.head _)

/-- Claim C2: the merge step drops url-less items, deduplicates by the
url key (title fallback) keeping the first occurrence, and sorts the
survivors descending by published timestamp; concretely, of two items
with the same url only the first encountered survives, and timestamps
3 > 2 > 1 come out in that order. -/
theorem merge_refines_spec :
    (∀ l : List FeedItem,
      mergeStep l =
        sortByPublishedDesc (specDedup (l.filter (fun item => !(item.url = ""))))) ∧
    (∀ l : List FeedItem,
      (mergeStep l).Pairwise (fun a b => b.publishedAt ≤ a.publishedAt)) ∧
    mergeStep [exD1, exD2] = [exD1] ∧
    mergeStep [exT2, exT1, exT3] = [exT1, exT2, exT3] := by
  refine ⟨?_, mergeStep_pairwise, rfl, rfl⟩
  intro l
  unfold mergeStep
  rw [dedupe_eq_specDedup]

/-- Claim C4: the score equals
min(1, max(0.1, 1.2 − hoursAgo/48) · weight) with hoursAgo the elapsed
hours floored at 1; an item published exactly now at weight 1 scores 1,
and one 100 hours old at weight 1 scores 0.1. -/
theorem scoreItem_formula :
    (∀ (publishedAt now : Int) (weight : ℚ),
      scoreItem publishedAt now weight =
        min 1 (max 0.1
          (1.2 - max (((now - publishedAt : Int) : ℚ) / 3600000) 1 / 48) * weight)) ∧
    scoreItem 0 0 1 = 1 ∧
    scoreItem 0 360000000 1 = 0.1 := by
  refine ⟨?_, ?_, ?_⟩
  · intro publishedAt now weight
    unfold scoreItem
    norm_num
  · unfold scoreItem
    norm_num
  · unfold scoreItem
    norm_num

/-- Claim C3: with the TTL fixed at 4 hours, a non-forced request inside
the TTL returns the stored items unchanged with cached=true and leaves
the slot untouched; a non-forced request at or past the TTL, or any
forced request, returns the fresh pipeline result with cached=false and
replaces the whole slot. -/
theorem cache_ttl_behavior :
    CACHE_TTL_MS = 4 * 60 * 60 * 1000 ∧
    (∀ (c : FeedCache) (now freshAt : Int) (fresh : List FeedItem),
      now - c.fetchedAt < CACHE_TTL_MS →
        handleGET false now (some c) fresh freshAt =
          (⟨c.items, c.fetchedAt, true⟩, some c)) ∧
    (∀ (c : FeedCache) (now freshAt : Int) (fresh : List FeedItem),
      CACHE_TTL_MS ≤ now - c.fetchedAt →
        handleGET false now (some c) fresh freshAt =
          (⟨fresh, freshAt, false⟩, some ⟨fresh, freshAt⟩)) ∧
    (∀ (now freshAt : Int) (cache : Option FeedCache) (fresh : List FeedItem),
      handleGET true now cache fresh freshAt =
        (⟨fresh, freshAt, false⟩, some ⟨fresh, freshAt⟩)) := by
  refine ⟨rfl, ?_, ?_, ?_⟩
  · intro c now freshAt fresh h
    have hstep : handleGET false now (some c) fresh freshAt =
        if false = false ∧ now - c.fetchedAt < CACHE_TTL_MS then
          (⟨c.items, c.fetchedAt, true⟩, some c)
        else (⟨fresh, freshAt, false⟩, some ⟨fresh, freshAt⟩) := rfl
    rw [hstep, if_pos ⟨rfl, h⟩]
  · intro c now freshAt fresh h
    have hstep : handleGET false now (some c) fresh freshAt =
        if false = false ∧ now - c.fetchedAt < CACHE_TTL_MS then
          (⟨c.items, c.fetchedAt, true⟩, some c)
        else (⟨fresh, freshAt, false⟩, some ⟨fresh, freshAt⟩) := rfl
    rw [hstep, if_neg]
    intro hcond
    exact absurd hcond.2 (not_lt.mpr h)
  · intro now freshAt cache fresh
    cases cache with
    | none => rfl
    | some c =>
      have hstep : handleGET true now (some c) fresh freshAt =
          if true = false ∧ now - c.fetchedAt < CACHE_TTL_MS then
            (⟨c.items, c.fetchedAt, true⟩, some c)
          else (⟨fresh, freshAt, false⟩, some ⟨fresh, freshAt⟩) := rfl
      rw [hstep, if_neg]
      intro hcond
      exact absurd hcond.1 (by simp)

/-- Witness for C3 at concrete instants: a hit 1 second after computation,
a refresh 4 hours and 1 second after, and a forced refresh. -/
theorem cache_ttl_behavior_witness :
    handleGET false 1000 (some cacheC3) [exT2] 1500 =
      (⟨cacheC3.items, cacheC3.fetchedAt, true⟩, some cacheC3) ∧
    handleGET false 14401000 (some cacheC3) [exT2] 14402000 =
      (⟨[exT2], 14402000, false⟩, some ⟨[exT2], 14402000⟩) ∧
    handleGET true 1000 (some cacheC3) [exT2] 1500 =
      (⟨[exT2], 1500, false⟩, some ⟨[exT2], 1500⟩) :=
  ⟨cache_ttl_behavior.2.1 cacheC3 1000 1500 [exT2] (by decide),
   cache_ttl_behavior.2.2.1 cacheC3 14401000 14402000 [exT2] (by decide),
   cache_ttl_behavior.2.2.2 1000 1500 (some cacheC3) [exT2]⟩

/-- Claim C5: category inference tests the lower-cased text against the
four keyword groups in the fixed order conference, research, job,
product-launch; the first matching group overrides the source default,
no match keeps the default; a text with both "summit" and "arxiv" is
classified Tech Conferences. -/
theorem inferCategory_priority :
    (∀ (text : String) (cat : FeedCategory),
      signalMatches conferenceSignals text = true →
        inferCategory text cat = .techConferences) ∧
    (∀ (text : String) (cat : FeedCategory),
      signalMatches conferenceSignals text = false →
      signalMatches researchSignals text = true →
        inferCategory text cat = .researchPapers) ∧
    (∀ (text : String) (cat : FeedCategory),
      signalMatches conferenceSignals text = false →
      signalMatches researchSignals text = false →
      signalMatches jobSignals text = true →
        inferCategory text cat = .techJobs) ∧
    (∀ (text : String) (cat : FeedCategory),
      signalMatches conferenceSignals text = false →
      signalMatches researchSignals text = false →
      signalMatches jobSignals text = false →
      signalMatches productSignals text = true →
        inferCategory text cat = .productLaunches) ∧
    (∀ (text : String) (cat : FeedCategory),
      signalMatches conferenceSignals text = false →
      signalMatches researchSignals text = false →
      signalMatches jobSignals text = false →
      signalMatches productSignals text = false →
        inferCategory text cat = cat) ∧
    inferCategory "Both a SUMMIT talk and an arxiv paper" .industryNews =
      .techConferences := by
  refine ⟨?_, ?_, ?_, ?_, ?_, rfl⟩
  · intro text cat h1
    simp only [signalMatches] at h1
    simp [inferCategory, h1]
  · intro text cat h1 h2
    simp only [signalMatches] at h1 h2
    simp [inferCategory, h1, h2]
  · intro text cat h1 h2 h3
    simp only [signalMatches] at h1 h2 h3
    simp [inferCategory, h1, h2, h3]
  · intro text cat h1 h2 h3 h4
    simp only [signalMatches] at h1 h2 h3 h4
    simp [inferCategory, h1, h2, h3, h4]
  · intro text cat h1 h2 h3 h4
    simp only [signalMatches] at h1 h2 h3 h4
    simp [inferCategory, h1, h2, h3, h4]

/-- Witness for C5: the conference branch fires on "summit", and the
research branch fires on "arxiv" when no conference keyword occurs. -/
theorem inferCategory_priority_witness :
    inferCategory "weekly summit" .openSource = .techConferences ∧
    inferCategory "new arxiv preprint" .openSource = .researchPapers :=
  ⟨inferCategory_priority.1 "weekly summit" .openSource (by decide),
   inferCategory_priority.2.1 "new arxiv preprint" .openSource
     (by decide) (by decide)⟩

/-- Counterexample to C6 as stated: `exC6` is a 300-character plain text,
yet its clamp is 222 characters, not the claimed 220 plus the 3-character
ellipsis marker, because the slice's trailing whitespace is trimmed
before the marker is appended. -/
theorem clampSummary_truncation_cex :
    jsLength exC6 = 300 ∧
    jsLength (clampSummary exC6 220) = 222 ∧
    clampSummary exC6 220 ≠ jsSlice exC6 220 ++ "..." := by
  refine ⟨by decide, by decide, by decide⟩

/-- Amended C6: a summary of at most 220 characters is returned
unchanged; a longer one is cut to its first 220 characters, that prefix
is trimmed of surrounding whitespace, and the ellipsis marker appended —
so the result may be shorter than 220 characters plus the marker.  The
pipeline feeds `clampSummary` the markup-stripped whitespace-collapsed
text. -/
theorem clampSummary_spec :
    (∀ (value : String) (maxLen : Nat), jsLength value ≤ maxLen →
      clampSummary value maxLen = value) ∧
    (∀ (value : String) (maxLen : Nat), maxLen < jsLength value →
      clampSummary value maxLen = jsTrim (jsSlice value maxLen) ++ "...") ∧
    (∀ (source : SourceConfig) (now : Int) (item : RawItem),
      ∃ text : String,
        (normalizeItem source now item).summary =
          clampSummary (stripHtml text) 220) ∧
    clampSummary ex100 220 = ex100 := by
  refine ⟨?_, ?_, ?_, rfl⟩
  · intro value maxLen h
    unfold clampSummary
    rw [if_pos h]
  · intro value maxLen h
    unfold clampSummary
    rw [if_neg (by omega)]
  · intro source now item
    exact ⟨_, rfl⟩

/-- Witness for the amended C6 at concrete lengths: 100 characters pass
through unchanged and the 300-character `exC6` is trimmed-then-marked. -/
theorem clampSummary_spec_witness :
    clampSummary ex100 220 = ex100 ∧
    clampSummary exC6 220 = jsTrim (jsSlice exC6 220) ++ "..." :=
  ⟨clampSummary_spec.1 ex100 220 (by decide),
   clampSummary_spec.2.1 exC6 220 (by decide)⟩

/-- Counterexample to C7 as stated: the url
`https://a.www.example.com/x` parses to hostname `a.www.example.com`,
whose leading-prefix-only strip would leave it unchanged, but
`extractDomain` removes the first `"www."` occurrence anywhere and
returns `a.example.com`. -/
theorem extractDomain_leading_www_cex :
    urlHostname "https://a.www.example.com/x" = some "a.www.example.com" ∧
    specLeadingWwwStripped "a.www.example.com" = "a.www.example.com" ∧
    extractDomain "https://a.www.example.com/x" = "a.example.com" ∧
    extractDomain "https://a.www.example.com/x" ≠
      specLeadingWwwStripped "a.www.example.com" :=
  ⟨rfl, rfl, rfl, by decide⟩

/-- Amended C7: the domain is the parsed hostname with its first
occurrence of `"www."` (not only a leading prefix) removed, the sentinel
`"source"` on parse failure; when the hostname has no `"www."` it is
unchanged, and when `"www."` is a leading prefix the result is the
claimed prefix-strip, as on `https://www.example.com/a/b`. -/
theorem extractDomain_first_www :
    (∀ (value host : String), urlHostname value = some host →
      extractDomain value = jsReplaceFirst host "www." "") ∧
    (∀ value : String, urlHostname value = none →
      extractDomain value = "source") ∧
    (∀ (value host : String), urlHostname value = some host →
      listContainsSub "www.".data host.data = false →
      extractDomain value = host) ∧
    (∀ (value host : String), urlHostname value = some host →
      "www.".data.isPrefixOf host.data = true →
      extractDomain value = ⟨host.data.drop 4⟩) ∧
    extractDomain "https://www.example.com/a/b" = "example.com" ∧
    extractDomain "not a url" = "source" := by
  refine ⟨?_, ?_, ?_, ?_, rfl, rfl⟩
  · intro value host h
    unfold extractDomain
    rw [h]
  · intro value h
    unfold extractDomain
    rw [h]
  · intro value host h hno
    unfold extractDomain
    rw [h]
    show jsReplaceFirst host "www." "" = host
    unfold jsReplaceFirst
    rw [listReplaceFirst_of_not_contains _ _ _ hno]
  · intro value host h hpre
    unfold extractDomain
    rw [h]
    show jsReplaceFirst host "www." "" = (⟨host.data.drop 4⟩ : String)
    unfold jsReplaceFirst
    rw [listReplaceFirst_of_leading _ _ hpre]
    rfl

/-- Witness for the amended C7 at concrete urls: a leading `www.` is
stripped, a `www.`-free hostname is untouched, a parse failure yields the
sentinel. -/
theorem extractDomain_first_www_witness :
    extractDomain "https://www.example.com/a/b" =
      (⟨"www.example.com".data.drop 4⟩ : String) ∧
    extractDomain "https://plain.example.org/p" = "plain.example.org" ∧
    extractDomain "not a url" = "source" :=
  ⟨extractDomain_first_www.2.2.2.1 "https://www.example.com/a/b"
      "www.example.com" rfl (by decide),
   extractDomain_first_www.2.2.1 "https://plain.example.org/p"
      "plain.example.org" rfl (by decide),
   extractDomain_first_www.2.1 "not a url" rfl⟩

/-- Counterexample to C8 as stated: `recC8` carries the native title
`" "` — present and non-empty — yet the emitted item's title is the
empty string, neither the native title nor "Untitled", and in particular
not a non-empty string. -/
theorem feed_title_cex :
    recC8.title = some " " ∧
    (fetchFeedItems rawC8 [] 5000).map (fun i => i.title) = [""] ∧
    ("" : String) ≠ "Untitled" ∧ ("" : String) ≠ " " :=
  ⟨rfl, rfl, by decide, by decide⟩

/-- Amended C8: the emitted title is the native title trimmed of
surrounding whitespace whenever the native title is present — even when
the trimmed result is empty — and "Untitled" only when the native title
is absent; the title is guaranteed non-empty only in those two cases. -/
theorem title_normalization :
    (∀ (source : SourceConfig) (now : Int) (item : RawItem) (t : String),
      item.title = some t →
        (normalizeItem source now item).title = jsTrim t) ∧
    (∀ (source : SourceConfig) (now : Int) (item : RawItem),
      item.title = none →
        (normalizeItem source now item).title = "Untitled") ∧
    (∀ (source : SourceConfig) (now : Int) (item : RawItem) (t : String),
      item.title = some t → jsTrim t ≠ "" →
        (normalizeItem source now item).title ≠ "") := by
  refine ⟨?_, ?_, ?_⟩
  · intro source now item t h
    unfold normalizeItem
    rw [h]
  · intro source now item h
    unfold normalizeItem
    rw [h]
  · intro source now item t h hne
    unfold normalizeItem
    rw [h]
    exact hne

/-- Witness for the amended C8 at concrete records: a present title is
trimmed, an absent one becomes "Untitled", a title that trims non-empty
stays non-empty. -/
theorem title_normalization_witness :
    (normalizeItem cfgDevto 0 recW).title = jsTrim "Title" ∧
    (normalizeItem cfgDevto 0 recNoTitle).title = "Untitled" ∧
    (normalizeItem cfgDevto 0 recW).title ≠ "" :=
  ⟨title_normalization.1 cfgDevto 0 recW "Title" rfl,
   title_normalization.2.1 cfgDevto 0 recNoTitle rfl,
   title_normalization.2.2 cfgDevto 0 recW "Title" rfl (by decide)⟩

/-- Counterexample to C9 as stated: two records of one source share a
guid but carry different links, both survive deduplication (distinct
urls), and the run's output contains the id "techcrunch-g-1" twice. -/
theorem feed_id_unique_cex :
    recC9A.guid = recC9B.guid ∧ recC9A.link ≠ recC9B.link ∧
    (fetchFeedItems rawC9 [] 5000).map (fun i => i.id) =
      ["techcrunch-g-1", "techcrunch-g-1"] ∧
    ¬ ((fetchFeedItems rawC9 [] 5000).map (fun i => i.id)).Nodup :=
  ⟨rfl, by decide, rfl, by decide⟩

/-- Keys of a merge-step output are pairwise distinct. -/
theorem mergeStep_keys_nodup (l : List FeedItem) :
    ((mergeStep l).map itemKey).Nodup :=
  ((mergeStep_perm l).map itemKey).symm.nodup (dedupe_keys_nodup _)

/-- Amended C9: what deduplication makes unique in a run's output is the
url key (title fallback), not the id field; ids can repeat when two
same-source records share a native identifier but resolve to different
urls. -/
theorem feed_keys_nodup (raw : String → List RawItem)
    (trend : List (String × String)) (now : Int) :
    ((fetchFeedItems raw trend now).map itemKey).Nodup :=
  mergeStep_keys_nodup _

/-- Claim C10: every trending item of a run carries the run's "now" as
its published timestamp and scores exactly 1 — the maximum any item can
score — while an item of any configured source that is at least 10 hours
old scores strictly below 1. -/
theorem trending_max_score :
    (∀ (entries : List (String × String)) (now : Int) (item : FeedItem),
      item ∈ fetchGitHubTrending entries now →
        item.publishedAt = now ∧ item.score = 1) ∧
    (∀ (publishedAt now : Int) (weight : ℚ),
      scoreItem publishedAt now weight ≤ 1) ∧
    (∀ s ∈ sources, ∀ publishedAt now : Int,
      36000000 ≤ now - publishedAt →
        scoreItem publishedAt now s.weight < 1) := by
  refine ⟨?_, scoreItem_le_one, ?_⟩
  · intro entries now item hmem
    unfold fetchGitHubTrending at hmem
    rw [List.mem_map] at hmem
    obtain ⟨e, _, rfl⟩ := hmem
    exact ⟨rfl, scoreItem_self_09 now⟩
  · intro s hs publishedAt now h
    have hw0 := sources_weight_nonneg s hs
    have hw := sources_weight_le s hs
    show min 1 (max 0.1
      (1.2 - max (((now - publishedAt : Int) : ℚ) / (1000 * 60 * 60)) 1 / 48) *
        s.weight) < 1
    have hd : (10 : ℚ) ≤ ((now - publishedAt : Int) : ℚ) / (1000 * 60 * 60) := by
      rw [le_div_iff₀ (by norm_num)]
      push_cast
      have hcast : ((36000000 : Int) : ℚ) ≤ ((now - publishedAt : Int) : ℚ) :=
        Int.cast_le.mpr h
      push_cast at hcast
      linarith
    have hh : (10 : ℚ) ≤
        max (((now - publishedAt : Int) : ℚ) / (1000 * 60 * 60)) 1 :=
      le_trans hd (le_max_left _ _)
    have hrec : max (0.1 : ℚ)
        (1.2 - max (((now - publishedAt : Int) : ℚ) / (1000 * 60 * 60)) 1 / 48) ≤
          119 / 120 := by
      apply max_le
      · norm_num
      · have h48 : (10 : ℚ) / 48 ≤
            max (((now - publishedAt : Int) : ℚ) / (1000 * 60 * 60)) 1 / 48 :=
          (div_le_div_iff_of_pos_right (by norm_num)).mpr hh
        have h119 : (1.2 : ℚ) - 10 / 48 = 119 / 120 := by norm_num
        linarith
    calc min 1 (max (0.1 : ℚ)
          (1.2 - max (((now - publishedAt : Int) : ℚ) / (1000 * 60 * 60)) 1 / 48) *
            s.weight)
        ≤ max (0.1 : ℚ)
          (1.2 - max (((now - publishedAt : Int) : ℚ) / (1000 * 60 * 60)) 1 / 48) *
            s.weight := min_le_right _ _
      _ ≤ (119 / 120) * 0.95 := mul_le_mul hrec hw hw0 (by norm_num)
      _ < 1 := by norm_num

/-- Witness for C10 on concrete inputs: a single scraped entry at instant
0 yields a trending item timestamped 0 with score 1, and a Dev.to item
exactly 10 hours old scores below 1. -/
theorem trending_max_score_witness :
    (trendingItem 0 ("owner/repo", "desc")).publishedAt = 0 ∧
    (trendingItem 0 ("owner/repo", "desc")).score = 1 ∧
    scoreItem 0 36000000 cfgDevto.weight < 1 :=
  ⟨(trending_max_score.1 [("owner/repo", "desc")] 0 _ (List.Mem.head _)).1,
   (trending_max_score.1 [("owner/repo", "desc")] 0 _ (List.Mem.head _)).2,
   trending_max_score.2.2 cfgDevto
     (List.mem_cons_of_mem _ (List.mem_cons_of_mem _ (List.Mem.head _)))
     0 36000000 (by decide)⟩

end Techflow
